import Mathlib

/-!
Verification development for the Fintagging extraction-and-linking pipeline.

The definitions below are a shallow embedding of the JavaScript source:
* the Rule-Based Extractor and extraction engine
  (`identifyNumericEntities`, `callGeminiAPI` in the FinNI controller),
* the Concept Linking Engine (`linkConcepts`, `processFinCL` in the
  auth/FinCL controller),
* the Evaluation Engine (`evaluateFinNIPredictions`, `_isMatchingEntity`
  in `datasetLoader.js`).

JavaScript numbers are idealized as rationals (`ℚ`); the only float-sensitive
comparison in scope, `parsed.mappings.length < batch.length * 0.7`, agrees
with the exact rational comparison `10*len < 7*B` for every batch size the
code can produce (B ≤ 40), so it is embedded as the integer inequality.
JavaScript `x || y` on numbers/strings (falsy = 0, NaN, "", undefined, null)
is embedded explicitly at each use site.  External I/O (the Gemini oracle,
JSON.parse) is a parameter of the embedding: an oracle is a function from
attempt indices to outcomes, and JSON parsing of oracle text is a parameter
`parse` where the surrounding control flow only inspects the parsed shape.
-/

/-! ## Character and string helpers (JS regex building blocks) -/

/-- Whitespace characters recognised by the JS `\s` class (ASCII subset). -/
def isWSChar (c : Char) : Bool :=
  c = ' ' || c = '\t' || c = '\n' || c = '\r'

/-- ASCII digit test, JS `[0-9]`. -/
def isDigitChar (c : Char) : Bool :=
  '0' ≤ c && c ≤ '9'

/-- JS regex word character `\w` = `[A-Za-z0-9_]`, used for `\b` boundaries. -/
def isWordChar (c : Char) : Bool :=
  ('a' ≤ c && c ≤ 'z') || ('A' ≤ c && c ≤ 'Z') || isDigitChar c || c = '_'

/-- Lower-case a character list (ASCII, matching JS `toLowerCase` on ASCII). -/
def lowerL (l : List Char) : List Char := l.map Char.toLower

/-- Lower-case a string. -/
def lowerStr (s : String) : String := String.mk (lowerL s.data)

/-- Holds when `pat` is an initial segment of `l`. -/
def beginsWith : List Char → List Char → Bool
  | [], _ => true
  | _ :: _, [] => false
  | p :: ps, c :: cs => p = c && beginsWith ps cs

/-- Substring test (JS `String.prototype.includes`). -/
def containsSub (hay needle : List Char) : Bool :=
  beginsWith needle hay ||
    match hay with
    | [] => false
    | _ :: t => containsSub t needle

/-- JS `hay.includes(needle)` on strings. -/
def incl (hay needle : String) : Bool := containsSub hay.data needle.data

/-- Remove every comma (JS `.replace(/,/g, '')`). -/
def stripCommasL (l : List Char) : List Char := l.filter (fun c => c ≠ ',')

/-- Map every whitespace char to a plain space. -/
def wsToSpace (l : List Char) : List Char :=
  l.map (fun c => if isWSChar c then ' ' else c)

/-- Collapse runs of spaces to a single space. -/
def squeezeSpaces : List Char → List Char
  | [] => []
  | [c] => [c]
  | a :: b :: t =>
    if a = ' ' && b = ' ' then squeezeSpaces (b :: t)
    else a :: squeezeSpaces (b :: t)

/-- Trim whitespace from both ends (JS `String.prototype.trim`, ASCII). -/
def trimWS (l : List Char) : List Char :=
  ((l.dropWhile isWSChar).reverse.dropWhile isWSChar).reverse

/-- JS `ctx.replace(/\s+/g, ' ').trim()`. -/
def collapseWS (l : List Char) : List Char :=
  trimWS (squeezeSpaces (wsToSpace l))

/-! ## The number core of the extractor regexes

All three extraction regexes share the number pattern
`[0-9]{1,3}(?:,[0-9]{3})*(?:\.[0-9]+)?` (call it NUM).  A JS regex engine
matches it by ordered backtracking: the leading digit group greedily (3,2,1),
then the comma groups greedily, then the optional fraction longest-first.
`numCandidates` lists the possible match lengths of NUM at the head of the
input in exactly that backtracking preference order; callers take the first
candidate whose continuation succeeds, which is the JS semantics. -/

/-- Number of leading ASCII digits. -/
def leadDigits (l : List Char) : Nat := (l.takeWhile isDigitChar).length

/-- Greedy count of leading `,[0-9]{3}` groups. -/
def maxReps : List Char → Nat
  | ',' :: a :: b :: c :: rest =>
    if isDigitChar a && isDigitChar b && isDigitChar c then 1 + maxReps rest
    else 0
  | _ => 0

/-- Lengths contributed by the optional fraction `(?:\.[0-9]+)?` at the head
of `l`, in backtracking preference order (longest fraction first, then
absent). -/
def fracCands (l : List Char) : List Nat :=
  match l with
  | '.' :: t =>
    let k := leadDigits t
    if k = 0 then [0]
    else ((List.range k).map (fun j => k + 1 - j)) ++ [0]
  | _ => [0]

/-- All match lengths of NUM at the head of `l`, in JS backtracking order. -/
def numCandidates (l : List Char) : List Nat :=
  let d := min (leadDigits l) 3
  if d = 0 then []
  else
    (List.range d).flatMap (fun ai =>
      let a := d - ai
      let rmax := maxReps (l.drop a)
      (List.range (rmax + 1)).flatMap (fun ri =>
        let r := rmax - ri
        (fracCands (l.drop (a + 4 * r))).map (fun f => a + 4 * r + f)))

/-! ## The entity record

`Entity` is the record produced by extraction (value, type, description,
unit, period, confidence); optional JS fields are `Option`s, JS `null` and
`undefined` both embed as `none`. -/

structure Entity where
  value : String
  type : String
  description : Option String
  unit : Option String
  period : Option String
  confidence : ℚ
deriving DecidableEq, Repr

/-! ## Monetary pass

`/(?:\bUSD\b|\bEUR\b|\bGBP\b|[$€£])\s?([0-9]{1,3}(?:,[0-9]{3})*(?:\.[0-9]+)?|[0-9]+(?:\.[0-9]+)?)/gi` -/

/-- Case-insensitive 3-letter currency code with `\b` on both sides;
`prev` is the character before the match position (`none` at the start). -/
def codeAt (s : List Char) (code : List Char) (prev : Option Char) : Bool :=
  match s with
  | a :: b :: c :: rest =>
    decide ([a.toUpper, b.toUpper, c.toUpper] = code) &&
    (match prev with | none => true | some pc => !isWordChar pc) &&
    (match rest with | [] => true | d :: _ => !isWordChar d)
  | _ => false

/-- Optional whitespace (`\s?`) then the number group.  The group's first alternative is NUM and its
second is `[0-9]+(?:\.[0-9]+)?`; nothing follows the group in the money
regex, so the group matches exactly when a digit is at hand and takes the
first (greedy) NUM candidate.  Returns (consumed length, group chars). -/
def numAfterWS (rest : List Char) : Option (Nat × List Char) :=
  match rest with
  | w :: r2 =>
    if isWSChar w then
      match (numCandidates r2).head? with
      | some c => some (1 + c, r2.take c)
      | none => none
    else
      match (numCandidates rest).head? with
      | some c => some (c, rest.take c)
      | none => none
  | [] => none

/-- Try the money regex anchored at the head of `s`.
Returns (total length, group chars, raw chars, unit string). -/
def moneyMatchAt (prev : Option Char) (s : List Char) :
    Option (Nat × List Char × List Char × String) :=
  let codeLen : Option Nat :=
    if codeAt s ['U', 'S', 'D'] prev then some 3
    else if codeAt s ['E', 'U', 'R'] prev then some 3
    else if codeAt s ['G', 'B', 'P'] prev then some 3
    else none
  match codeLen with
  | some _ =>
    match numAfterWS (s.drop 3) with
    | some (nl, grp) => some (3 + nl, grp, s.take (3 + nl), String.mk (s.take 3))
    | none => none
  | none =>
    match s with
    | c :: _ =>
      if c = '$' || c = '€' || c = '£' then
        match numAfterWS (s.drop 1) with
        | some (nl, grp) => some (1 + nl, grp, s.take (1 + nl), String.mk [c])
        | none => none
      else none
    | [] => none

/-- Scan of the monetary regex over the text (`regex.exec` loop semantics:
leftmost match from the current position, resume after the match end). -/
def moneyScan (fuel : Nat) (prev : Option Char) (s : List Char) : List Entity :=
  match fuel, s with
  | 0, _ => []
  | _, [] => []
  | f + 1, c :: t =>
    match moneyMatchAt prev s with
    | some (len, grp, raw, unit) =>
      { value := String.mk (stripCommasL grp)
        type := "monetary"
        description := some ("Found monetary value: " ++ String.mk raw)
        unit := some unit
        period := none
        confidence := 8/10 } :: moneyScan f ((s.take len).getLast?) (s.drop len)
    | none => moneyScan f (some c) t

/-! ## Percentage pass

`/([0-9]{1,3}(?:,[0-9]{3})*(?:\.[0-9]+)?)\s?%/g` -/

/-- Try the percentage regex anchored at the head of `s`:
first NUM candidate whose continuation `\s?%` succeeds (with the optional
whitespace tried greedily first).  Returns (total length, group chars). -/
def pctMatchAt (s : List Char) : Option (Nat × List Char) :=
  let rec go : List Nat → Option (Nat × List Char)
    | [] => none
    | c :: cs =>
      match s.drop c with
      | w :: r2 =>
        if isWSChar w && r2.head? = some '%' then some (c + 2, s.take c)
        else if w = '%' then some (c + 1, s.take c)
        else go cs
      | [] => go cs
  go (numCandidates s)

/-- Scan of the percentage regex over the text. -/
def pctScan (fuel : Nat) (s : List Char) : List Entity :=
  match fuel, s with
  | 0, _ => []
  | _, [] => []
  | f + 1, _ :: t =>
    match pctMatchAt s with
    | some (len, grp) =>
      { value := String.mk (stripCommasL grp)
        type := "percentage"
        description := some ("Found percentage: " ++ String.mk (s.take len))
        unit := some "%"
        period := none
        confidence := 8/10 } :: pctScan f (s.drop len)
    | none => pctScan f t

/-! ## Plain-number pass

`/\b([0-9]{1,3}(?:,[0-9]{3})*(?:\.[0-9]+)?)\b/g` with a ±40 character context
window around the match index deciding the type heuristically. -/

/-- Context-window keyword classification:
`/share|shares|issued|outstanding/i` then `/year|fy|q[1-4]|quarter|as of/i`,
default `count`.  `ctxLower` is the lower-cased window.
Returns (type, unit). -/
def plainTypeOf (ctxLower : List Char) : String × Option String :=
  if containsSub ctxLower "share".data || containsSub ctxLower "shares".data ||
     containsSub ctxLower "issued".data || containsSub ctxLower "outstanding".data then
    ("shares", some "shares")
  else if containsSub ctxLower "year".data || containsSub ctxLower "fy".data ||
          containsSub ctxLower "q1".data || containsSub ctxLower "q2".data ||
          containsSub ctxLower "q3".data || containsSub ctxLower "q4".data ||
          containsSub ctxLower "quarter".data || containsSub ctxLower "as of".data then
    ("date", none)
  else
    ("count", none)

/-- Build the plain-number entity for a match of length `len` at index `idx`. -/
def plainEntityAt (full : List Char) (idx len : Nat) : Entity :=
  let ctx := (full.take (min full.length (idx + 40))).drop (idx - 40)
  let tu := plainTypeOf (lowerL ctx)
  { value := String.mk (stripCommasL ((full.drop idx).take len))
    type := tu.1
    description := some ("Context: " ++ String.mk (collapseWS ctx))
    unit := tu.2
    period := none
    confidence := 6/10 }

/-- Scan of the plain-number regex over the text, tracking the absolute
index for the `\b` boundaries and the context window. -/
def plainScan (full : List Char) : Nat → Nat → List Entity
  | 0, _ => []
  | f + 1, idx =>
    let s := full.drop idx
    match s with
    | [] => []
    | _ :: _ =>
      let prevOk : Bool :=
        match idx with
        | 0 => true
        | i + 1 => match full.get? i with
          | some pc => !isWordChar pc
          | none => true
      let cand : Option Nat :=
        if prevOk then
          (numCandidates s).find? (fun c =>
            match (s.drop c).head? with
            | some ch => !isWordChar ch
            | none => true)
        else none
      match cand with
      | some c => plainEntityAt full idx c :: plainScan full f (idx + c)
      | none => plainScan full f (idx + 1)

/-! ## Dedup and the Rule-Based Extractor -/

/-- The JS dedup key is the string `` `${e.value}||${e.type}` ``. -/
def keyOf (e : Entity) : List Char := e.value.data ++ ['|', '|'] ++ e.type.data

/-- Dedup worker: `seen` is the set of keys already emitted. -/
def dedupGo (seen : List (List Char)) : List Entity → List Entity
  | [] => []
  | e :: t =>
    if keyOf e ∈ seen then dedupGo seen t
    else e :: dedupGo (keyOf e :: seen) t

/-- Deduplicate by the `value||type` key, keeping the first occurrence. -/
def dedupEntities (l : List Entity) : List Entity := dedupGo [] l

/-- The Rule-Based Extractor: monetary pass, percentage pass, plain-number
pass (in that order), then dedup — `ruleBasedNumericExtraction` in the
source. -/
def ruleBasedNumericExtraction (text : String) : List Entity :=
  let l := text.data
  dedupEntities
    (moneyScan l.length none l ++ pctScan l.length l ++ plainScan l l.length 0)

/-- Worker for the reference dedup keyed literally by the (value, type)
pair. -/
def dedupPairGo (seen : List (String × String)) : List Entity → List Entity
  | [] => []
  | e :: t =>
    if (e.value, e.type) ∈ seen then dedupPairGo seen t
    else e :: dedupPairGo ((e.value, e.type) :: seen) t

/-- Reference dedup keyed by the (value, type) pair, keeping the first
occurrence of each key — this follows the spec sentence verbatim, for
comparison with the string-keyed `dedupEntities` of the source (the two
differ only when a value contains the pipe character). -/
def dedupByPair (l : List Entity) : List Entity := dedupPairGo [] l

/-! ## Entity Extraction Engine (`identifyNumericEntities` / `callGeminiAPI`)

The Gemini oracle is embedded as `oracle : Nat → Except String String`
(attempt index ↦ transport failure or raw response text) and JSON.parse as a
parameter `parse : String → Option ExtractResp` of which only the parsed
shape is inspected: `none` embeds a JSON.parse throw; `entities = none`
embeds a parsed object whose `entities` key is missing or not an array.
The 30000-character prompt truncation only affects the prompt sent to the
oracle (absorbed in the `oracle` parameter); the rule-based fallback is
always applied to the full, untruncated `text`, as in the source. -/

/-- The shape of an entity as it appears in a parsed oracle response; every
field may be absent. -/
structure RawEntity where
  value : Option String
  type : Option String
  description : Option String
  unit : Option String
  period : Option String
  confidence : Option ℚ
deriving DecidableEq, Repr

/-- Result of `JSON.parse` on an extraction response as far as the engine
inspects it: `entities = none` means no `entities` array was present. -/
structure ExtractResp where
  entities : Option (List RawEntity)
deriving DecidableEq, Repr

/-- JS `x || d` on numbers: `undefined`/`null`/`0` fall back to `d`. -/
def jsOrQ : Option ℚ → ℚ → ℚ
  | none, d => d
  | some x, d => if x = 0 then d else x

/-- The per-entity post-processing of the oracle success path:
`{...entity, confidence: entity.confidence || 0.9,
value: (entity.value || '').toString().replace(/,/g, ''),
type: (entity.type || '').toLowerCase()}`. -/
def normalizeEntity (raw : RawEntity) : Entity :=
  { value := String.mk (stripCommasL (raw.value.getD "").data)
    type := lowerStr (raw.type.getD "")
    description := raw.description
    unit := raw.unit
    period := raw.period
    confidence := jsOrQ raw.confidence (9/10) }

/-- Worker for the global `/```json\s*/g` removal. -/
def stripFenceGo : Nat → List Char → List Char
  | 0, l => l
  | f + 1, l =>
    if beginsWith "```json".data l then
      stripFenceGo f ((l.drop 7).dropWhile isWSChar)
    else
      match l with
      | [] => []
      | c :: t => c :: stripFenceGo f t

/-- Removal of a trailing code fence, `/```\s*$/`. -/
def removeTrailingFence (l : List Char) : List Char :=
  let r := l.reverse.dropWhile isWSChar
  if beginsWith "```".data r then (r.drop 3).reverse else l

/-- The cleaning `responseText.replace(/```json\s*/g, '').replace(/```\s*$/g,
'').trim()` performed inside `makeApiCall`. -/
def stripJsonFences (s : String) : String :=
  String.mk (trimWS (removeTrailingFence (stripFenceGo s.data.length s.data)))

/-- The ad-hoc completeness heuristic: the cleaned response must end in a
closing brace or bracket. -/
def endsBrace (s : String) : Bool :=
  match s.data.getLast? with
  | some c => c = '\x7d' || c = ']'
  | none => false

/-- One `makeApiCall` attempt: transport, fence stripping, the completeness
heuristic, JSON.parse, and the `entities` array check; any failure is an
`Except.error`, success returns the cleaned response text. -/
def attemptResult (parse : String → Option ExtractResp)
    (oracle : Nat → Except String String) (i : Nat) : Except String String :=
  match oracle i with
  | .error e => .error e
  | .ok raw =>
    let c := stripJsonFences raw
    if !endsBrace c then .error "Incomplete JSON response from API"
    else
      match parse c with
      | none => .error "Invalid JSON from API"
      | some d =>
        match d.entities with
        | none => .error "Invalid JSON structure - missing entities array"
        | some _ => .ok c

/-- The retry loop of `callGeminiAPI`: attempts `i, i+1, …` with `fuel`
retries remaining; the final failure is rethrown. -/
def callGo (parse : String → Option ExtractResp)
    (oracle : Nat → Except String String) : Nat → Nat → Except String String
  | i, 0 => attemptResult parse oracle i
  | i, f + 1 =>
    match attemptResult parse oracle i with
    | .ok t => .ok t
    | .error _ => callGo parse oracle (i + 1) f

/-- The source `callGeminiAPI(prompt, retries)`: up to `retries` retried attempts after
the first (the source default is `retries = 2`, i.e. three attempts). -/
def callGeminiAPI (parse : String → Option ExtractResp)
    (oracle : Nat → Except String String) (retries : Nat) : Except String String :=
  callGo parse oracle 0 retries

/-- The re-sanitization in `identifyNumericEntities` before its own parse:
trim, and if the text starts with a ```json fence, strip the leading
`/^```json\s*/` and the trailing `/\s*```$/`. -/
def sanitizeResp (t : String) : String :=
  let u := trimWS t.data
  if beginsWith "```json".data u then
    let u1 := (u.drop 7).dropWhile isWSChar
    let r := u1.reverse
    if beginsWith "```".data r then String.mk (((r.drop 3).dropWhile isWSChar).reverse)
    else String.mk u1
  else String.mk u

/-- What `identifyNumericEntities` returns. -/
structure ExtractResult where
  entities : List Entity
deriving DecidableEq, Repr

/-- Holds when an `Except` carries an error. -/
def exceptFailed : Except String α → Bool
  | .error _ => true
  | .ok _ => false

/-- The Entity Extraction Engine `identifyNumericEntities`:
`useLocalFlag` embeds `USE_LOCAL_EXTRACTION === 'true'`, `hasKey` embeds the
presence of `GEMINI_API_KEY`.  Every failure path of the oracle branch — the
surrounding try/catch in the source — degrades to the Rule-Based Extractor
over the full text. -/
def identifyNumericEntities (parse : String → Option ExtractResp)
    (useLocalFlag hasKey : Bool) (oracle : Nat → Except String String)
    (text : String) : ExtractResult :=
  if useLocalFlag || !hasKey then ⟨ruleBasedNumericExtraction text⟩
  else
    match callGeminiAPI parse oracle 2 with
    | .error _ => ⟨ruleBasedNumericExtraction text⟩
    | .ok t =>
      match parse (sanitizeResp t) with
      | none => ⟨ruleBasedNumericExtraction text⟩
      | some d =>
        match d.entities with
        | none => ⟨ruleBasedNumericExtraction text⟩
        | some raws => ⟨raws.map normalizeEntity⟩

/-! ## Evaluation Engine (`evaluateFinNIPredictions` / `_isMatchingEntity`)

JS metric expressions have the form `a / b || 0`: when `b = 0` the quotient
is `NaN` (or, with `a = 0`, `0/0 = NaN`) and `|| 0` turns it into `0`; here
the numerators are non-negative and a zero denominator forces a zero
numerator or is handled by `|| 0`, so the expressions coincide with rational
division under Lean's `x / 0 = 0` convention. -/

/-- Digit list to natural number. -/
def digitsToNat (l : List Char) : Nat :=
  l.foldl (fun a c => 10 * a + (c.toNat - '0'.toNat)) 0

/-- An exact decimal number `num / 10^exp`.  JS `parseFloat` results are
embedded in this form (rather than directly in `ℚ`) so that the matching
predicate is computable by kernel reduction; `decValue` is the denoted
rational. -/
structure Dec10 where
  num : ℤ
  exp : ℕ
deriving DecidableEq, Repr

/-- The power `10^e` as an integer. -/
def pow10 (e : ℕ) : ℤ := ((10 ^ e : ℕ) : ℤ)

/-- The rational denoted by a `Dec10`. -/
def decValue (d : Dec10) : ℚ := (d.num : ℚ) / ((pow10 d.exp : ℤ) : ℚ)

/-- Model of JS `parseFloat` on the grammar
`\s*[+-]?digits(.digits?)?([eE][+-]?digits)?` (longest valid prefix; `none`
embeds `NaN`). -/
def parseFloatD (s : String) : Option Dec10 :=
  let l := s.data.dropWhile isWSChar
  let sgn : ℤ := match l.head? with | some '-' => -1 | _ => 1
  let l1 := match l with | '-' :: t => t | '+' :: t => t | _ => l
  let d1 := l1.takeWhile isDigitChar
  let r1 := l1.dropWhile isDigitChar
  let fr := match r1 with
    | '.' :: t => (t.takeWhile isDigitChar, t.dropWhile isDigitChar)
    | _ => ([], r1)
  if d1.isEmpty && fr.1.isEmpty then none
  else
    let k := fr.1.length
    let mant : ℤ := sgn * ((digitsToNat d1 : ℤ) * pow10 k + (digitsToNat fr.1 : ℤ))
    let ex : ℤ := match fr.2 with
      | c :: t =>
        if c = 'e' || c = 'E' then
          let esgn : ℤ := match t.head? with | some '-' => -1 | _ => 1
          let t1 := match t with | '-' :: u => u | '+' :: u => u | _ => t
          let ed := t1.takeWhile isDigitChar
          if ed.isEmpty then 0 else esgn * (digitsToNat ed : ℤ)
        else 0
      | [] => 0
    match ex - (k : ℤ) with
    | .ofNat n => some ⟨mant * pow10 n, 0⟩
    | .negSucc m => some ⟨mant, m + 1⟩

/-- The test `|a - b| < 1/100` on exact decimals:
`100 * |a.num * 10^b.exp - b.num * 10^a.exp| < 10^(a.exp + b.exp)`. -/
def closeLt (a b : Dec10) : Bool :=
  100 * (a.num * pow10 b.exp - b.num * pow10 a.exp).natAbs < 10 ^ (a.exp + b.exp)

/-- JS `Math.abs(parseFloat(pred) - parseFloat(gold)) < 0.01` with `NaN`
comparisons false. -/
def qAbsLt (a b : Option Dec10) : Bool :=
  match a, b with
  | some x, some y => closeLt x y
  | _, _ => false

/-- An entity as the Evaluation Engine sees it. -/
structure EvalEntity where
  value : String
  type : String
deriving DecidableEq, Repr

/-- The source `_isMatchingEntity`: strict string equality of `value`, equality of
`type`, and numeric closeness of the parsed values. -/
def isMatchingEntity (pred gold : EvalEntity) : Bool :=
  pred.value == gold.value && pred.type == gold.type &&
    qAbsLt (parseFloatD pred.value) (parseFloatD gold.value)

/-- Gold items with at least one matching prediction. -/
def finNITruePositives (preds golds : List EvalEntity) : Nat :=
  golds.countP (fun g => preds.any (fun p => isMatchingEntity p g))

/-- Gold items with no matching prediction. -/
def finNIFalseNegatives (preds golds : List EvalEntity) : Nat :=
  golds.countP (fun g => !preds.any (fun p => isMatchingEntity p g))

/-- Predictions matching no gold item. -/
def finNIFalsePositives (preds golds : List EvalEntity) : Nat :=
  preds.countP (fun p => !golds.any (fun g => isMatchingEntity p g))

/-- The metrics record computed per evaluation call. -/
structure EvalMetrics where
  precision : ℚ
  «recall» : ℚ
  f1Score : ℚ
  accuracy : ℚ
deriving DecidableEq, Repr

/-- The source `evaluateFinNIPredictions`: counts, then
`precision = tp/(tp+fp) || 0`, `recall = tp/(tp+fn) || 0`,
`f1 = 2*((p*r)/(p+r)) || 0`, `accuracy = tp/goldStandard.length || 0`. -/
def evaluateFinNIPredictions (preds golds : List EvalEntity) : EvalMetrics :=
  let tp : ℚ := finNITruePositives preds golds
  let fp : ℚ := finNIFalsePositives preds golds
  let fn : ℚ := finNIFalseNegatives preds golds
  let p := tp / (tp + fp)
  let r := tp / (tp + fn)
  { precision := p
    «recall» := r
    f1Score := 2 * ((p * r) / (p + r))
    accuracy := tp / (golds.length : ℚ) }

/-! ## Concept Linking Engine (`linkConcepts` / `processFinCL`)

A linking oracle attempt is embedded as
`oracle : Nat → Nat → Except String LinkParsed` (batch index, attempt index
1–3 ↦ a throw anywhere in `generateContent`/fence-stripping/`JSON.parse`, or
the parsed response as far as the engine inspects it).  The response
validation `parsed.mappings.length < batch.length * 0.7` is embedded as
`10 * length < 7 * B`; for every batch size `B ≤ 40` the double-precision
product `B * 0.7` rounds to the exact rational value whenever `7B/10` is an
integer, so the two conditions agree on all reachable inputs. -/

/-- An XBRL tag as produced by linking. -/
structure XbrlTag where
  concept : String
  taxonomy : String
  confidence : ℚ
deriving DecidableEq, Repr

/-- One element of a parsed `mappings` array.  The response validation only
checks the mapping count, never the fields, so a parsed mapping may carry an
`xbrlTag` with no `explanation` key — `none` embeds that absent
(`undefined`) case. -/
structure RawMapping where
  entityId : Nat
  xbrlTag : Option XbrlTag
  explanation : Option String
deriving DecidableEq, Repr

/-- Result of `JSON.parse` on a linking response as far as the engine
inspects it: `mappings = none` means no `mappings` array was present. -/
structure LinkParsed where
  mappings : Option (List RawMapping)
deriving DecidableEq, Repr

/-- An entity after linking: the input entity plus `xbrlTag` and
`mappingExplanation` (both possibly absent). -/
structure LinkedEntity where
  value : String
  type : String
  description : Option String
  unit : Option String
  period : Option String
  confidence : ℚ
  xbrlTag : Option XbrlTag
  mappingExplanation : Option String
deriving DecidableEq, Repr

/-- Validation of one parsed response against the batch size `B`:
`none` when the `mappings` array is missing or covers fewer than 70% of the
batch (`10 * length < 7 * B`), otherwise the mappings. -/
def attemptMappings (p : LinkParsed) (B : Nat) : Option (List RawMapping) :=
  match p.mappings with
  | none => none
  | some ms => if 10 * ms.length < 7 * B then none else some ms

/-- The outcome of attempt `a` for batch `b`: `none` embeds a throw anywhere
in the attempt or an invalid/incomplete `mappings` array, `some ms` a
validated mapping list. -/
def attemptValue (oracle : Nat → Nat → Except String LinkParsed)
    (b B a : Nat) : Option (List RawMapping) :=
  match oracle b a with
  | .error _ => none
  | .ok p => attemptMappings p B

/-- Holds when attempt `a` for batch `b` counts as failed. -/
def attemptFailed (oracle : Nat → Nat → Except String LinkParsed)
    (b B a : Nat) : Bool :=
  (attemptValue oracle b B a).isNone

/-- The per-batch retry loop (`MAX_RETRIES = 3`): attempts 1, 2, 3 in order;
the first valid response wins; after three failures the batch contributes
nothing (`none`) and no exception propagates. -/
def batchResult (oracle : Nat → Nat → Except String LinkParsed)
    (b B : Nat) : Option (List RawMapping) :=
  match attemptValue oracle b B 1 with
  | some ms => some ms
  | none =>
    match attemptValue oracle b B 2 with
    | some ms => some ms
    | none => attemptValue oracle b B 3

/-- The source constant `BATCH_SIZE = 40`. -/
def BATCH_SIZE : Nat := 40

/-- Number of loop iterations of `for (batchStart = 0; batchStart <
entities.length; batchStart += 40)`. -/
def numBatches (n : Nat) : Nat := (n + BATCH_SIZE - 1) / BATCH_SIZE

/-- The slice `entities.slice(40*b, 40*b + 40)`. -/
def batchAt (es : List Entity) (b : Nat) : List Entity :=
  (es.drop (BATCH_SIZE * b)).take BATCH_SIZE

/-- The accumulated `allMappings` list: per successful batch, its mappings
with each batch-local `entityId` re-indexed by the batch offset `40*b`. -/
def collectAll (oracle : Nat → Nat → Except String LinkParsed)
    (es : List Entity) : List RawMapping :=
  (List.range (numBatches es.length)).flatMap (fun b =>
    match batchResult oracle b (batchAt es b).length with
    | some ms => ms.map (fun m => { m with entityId := m.entityId + BATCH_SIZE * b })
    | none => [])

/-- The key `(entity.description || entity.value || '').toLowerCase()`. -/
def descKey (e : Entity) : String :=
  lowerStr (match e.description with
    | some s => if s = "" then e.value else s
    | none => e.value)

/-- The enhanced rule-based keyword table applied to entities left unmapped
by the oracle (first matching rule wins, confidence 0.6). -/
def enhancedRuleTag (desc : String) : Option XbrlTag :=
  if incl desc "revenue" || incl desc "sales" || incl desc "service revenue" then
    some ⟨"us-gaap:Revenue", "us-gaap", 6/10⟩
  else if incl desc "net income" || incl desc "net profit" || incl desc "net loss" then
    some ⟨"us-gaap:NetIncomeLoss", "us-gaap", 6/10⟩
  else if incl desc "operating income" || incl desc "operating profit" then
    some ⟨"us-gaap:OperatingIncomeLoss", "us-gaap", 6/10⟩
  else if incl desc "gross profit" || incl desc "gross margin" then
    some ⟨"us-gaap:GrossProfit", "us-gaap", 6/10⟩
  else if incl desc "pretax income" || incl desc "income before tax" ||
          incl desc "earnings before tax" then
    some ⟨"us-gaap:IncomeLossFromContinuingOperationsBeforeIncomeTaxesExtraordinaryItemsNoncontrollingInterest", "us-gaap", 6/10⟩
  else if incl desc "depreciation" && incl desc "expense" then
    some ⟨"us-gaap:DepreciationDepletionAndAmortization", "us-gaap", 6/10⟩
  else if incl desc "interest expense" then
    some ⟨"us-gaap:InterestExpense", "us-gaap", 6/10⟩
  else if incl desc "tax expense" || incl desc "income tax" then
    some ⟨"us-gaap:IncomeTaxExpenseBenefit", "us-gaap", 6/10⟩
  else if incl desc "wage" || incl desc "salary" || incl desc "payroll" then
    some ⟨"us-gaap:LaborAndRelatedExpense", "us-gaap", 6/10⟩
  else if incl desc "supplies expense" then
    some ⟨"us-gaap:SuppliesExpense", "us-gaap", 6/10⟩
  else if incl desc "operating expense" || incl desc "total operating" then
    some ⟨"us-gaap:OperatingExpenses", "us-gaap", 6/10⟩
  else if incl desc "cost of goods" || incl desc "cost of revenue" || incl desc "cogs" then
    some ⟨"us-gaap:CostOfRevenue", "us-gaap", 6/10⟩
  else if incl desc "total assets" || (incl desc "assets" && !incl desc "liabilities") then
    some ⟨"us-gaap:Assets", "us-gaap", 6/10⟩
  else if incl desc "total liabilities" then
    some ⟨"us-gaap:Liabilities", "us-gaap", 6/10⟩
  else if incl desc "cash" || incl desc "cash equivalents" then
    some ⟨"us-gaap:CashAndCashEquivalentsAtCarryingValue", "us-gaap", 6/10⟩
  else if incl desc "retained earnings" then
    some ⟨"us-gaap:RetainedEarningsAccumulatedDeficit", "us-gaap", 6/10⟩
  else if incl desc "stockholders equity" || incl desc "shareholders equity" ||
          incl desc "total equity" then
    some ⟨"us-gaap:StockholdersEquity", "us-gaap", 6/10⟩
  else if incl desc "accounts receivable" || incl desc "receivables" then
    some ⟨"us-gaap:AccountsReceivableNetCurrent", "us-gaap", 6/10⟩
  else if incl desc "accounts payable" || incl desc "payables" then
    some ⟨"us-gaap:AccountsPayableCurrent", "us-gaap", 6/10⟩
  else if incl desc "inventory" || incl desc "inventories" then
    some ⟨"us-gaap:InventoryNet", "us-gaap", 6/10⟩
  else if incl desc "shares outstanding" || incl desc "shares issued" then
    some ⟨"us-gaap:WeightedAverageNumberOfSharesOutstandingBasic", "us-gaap", 6/10⟩
  else if incl desc "earnings per share" || incl desc "eps" then
    some ⟨"us-gaap:EarningsPerShareBasic", "us-gaap", 6/10⟩
  else if incl desc "dividends" then
    some ⟨"us-gaap:Dividends", "us-gaap", 6/10⟩
  else none

/-- The per-entity fallback branch of the final merge: rule tag when a
keyword matches, with the disclosed explanations. -/
def fallbackLink (e : Entity) : LinkedEntity :=
  let tag := enhancedRuleTag (descKey e)
  { value := e.value, type := e.type, description := e.description
    unit := e.unit, period := e.period, confidence := e.confidence
    xbrlTag := tag
    mappingExplanation :=
      match tag with
      | some _ => some "Rule-based mapping (fallback)"
      | none => some "No suitable US-GAAP mapping found" }

/-- The merge applied to one entity at global index `i`:
`allMappings.find(m => m.entityId === index)`, used when it carries a
non-null `xbrlTag`, otherwise the rule fallback. -/
def applyOne (ms : List RawMapping) (i : Nat) (e : Entity) : LinkedEntity :=
  match ms.find? (fun m => m.entityId == i) with
  | some m =>
    match m.xbrlTag with
    | some t =>
      { value := e.value, type := e.type, description := e.description
        unit := e.unit, period := e.period, confidence := e.confidence
        xbrlTag := some t, mappingExplanation := m.explanation }
    | none => fallbackLink e
  | none => fallbackLink e

/-- The map `entities.map((entity, index) => ...)` with the running global index. -/
def applyAll (ms : List RawMapping) : Nat → List Entity → List LinkedEntity
  | _, [] => []
  | i, e :: t => applyOne ms i e :: applyAll ms (i + 1) t

/-- The body of `linkConcepts` after the API-key check: batch loop, merge,
fallback. -/
def linkCore (oracle : Nat → Nat → Except String LinkParsed)
    (es : List Entity) : List LinkedEntity :=
  applyAll (collectAll oracle es) 0 es

/-- The source `linkConcepts`: throws when no oracle credential is configured (the
top-level catch rethrows), otherwise returns one linked entity per input. -/
def linkConcepts (hasKey : Bool) (oracle : Nat → Nat → Except String LinkParsed)
    (es : List Entity) : Except String (List LinkedEntity) :=
  if hasKey then .ok (linkCore oracle es)
  else .error "GEMINI_API_KEY environment variable is not set"

/-- The reduced keyword table of the secondary top-level fallback in
`processFinCL`, keyed on the description only. -/
def simpleRuleTag (desc : String) : Option XbrlTag :=
  if incl desc "revenue" || incl desc "sales" then
    some ⟨"us-gaap:Revenue", "us-gaap", 7/10⟩
  else if incl desc "net income" || incl desc "net profit" then
    some ⟨"us-gaap:NetIncomeLoss", "us-gaap", 7/10⟩
  else if incl desc "operating income" then
    some ⟨"us-gaap:OperatingIncomeLoss", "us-gaap", 7/10⟩
  else if incl desc "assets" && incl desc "total" then
    some ⟨"us-gaap:Assets", "us-gaap", 7/10⟩
  else if incl desc "expense" then
    some ⟨"us-gaap:OperatingExpenses", "us-gaap", 6/10⟩
  else none

/-- The secondary fallback applied per entity when `linkConcepts` throws:
`{...entity, xbrlTag}` — no `mappingExplanation` is ever set on this path. -/
def secondaryLink (e : Entity) : LinkedEntity :=
  { value := e.value, type := e.type, description := e.description
    unit := e.unit, period := e.period, confidence := e.confidence
    xbrlTag := simpleRuleTag (lowerStr (e.description.getD ""))
    mappingExplanation := none }

/-- The linked-entity list `processFinCL` goes on to format and store:
the `linkConcepts` output, or the secondary fallback when it threw. -/
def processFinCLLinked (hasKey : Bool)
    (oracle : Nat → Nat → Except String LinkParsed)
    (es : List Entity) : List LinkedEntity :=
  match linkConcepts hasKey oracle es with
  | .ok l => l
  | .error _ => es.map secondaryLink

/-! ## The stored ProcessingRecords (`processFinNI` / `processFinCL`) -/

/-- A stored FinNI prediction row. -/
structure PredRecord where
  value : String
  entityType : String
  confidence : ℚ
deriving DecidableEq, Repr

/-- The FinNI result record as built by `processFinNI` (metrics are
hard-coded constants; `processingTime` is the constant 1000). -/
structure FinNIRecord where
  predictions : List PredRecord
  metrics : EvalMetrics
  processingTime : Nat
deriving DecidableEq, Repr

/-- The `resultData` built by `processFinNI` from the extracted entities. -/
def processFinNIRecord (es : List Entity) : FinNIRecord :=
  { predictions := es.map (fun e => ⟨e.value, e.type, e.confidence⟩)
    metrics := { precision := 95/100, «recall» := 92/100
                 f1Score := 93/100, accuracy := 94/100 }
    processingTime := 1000 }

/-- FinCL metrics: JS `mappedCount / formattedEntities.length` with no
guard — `none` embeds the `NaN` produced on an empty list. -/
structure FinCLMetrics where
  precision : Option ℚ
  «recall» : Option ℚ
  f1Score : Option ℚ
  accuracy : Option ℚ
deriving DecidableEq, Repr

/-- Entities that received a (truthy) `xbrlTag`. -/
def mappedCount (fe : List LinkedEntity) : Nat :=
  fe.countP (fun e => e.xbrlTag.isSome)

/-- The single ratio all four FinCL metrics are set to. -/
def finCLFraction (fe : List LinkedEntity) : Option ℚ :=
  if fe.length = 0 then none
  else some ((mappedCount fe : ℚ) / (fe.length : ℚ))

/-- The FinCL result record as built by `processFinCL`. -/
structure FinCLRecord where
  predictions : List LinkedEntity
  metrics : FinCLMetrics
  processingTime : Nat
deriving DecidableEq, Repr

/-- The `resultData` built by `processFinCL` from the formatted entities. -/
def processFinCLRecord (fe : List LinkedEntity) : FinCLRecord :=
  { predictions := fe
    metrics := { precision := finCLFraction fe, «recall» := finCLFraction fe
                 f1Score := finCLFraction fe, accuracy := finCLFraction fe }
    processingTime := 1500 }

/-! ## Concrete fixtures used by witnesses -/

/-- A JSON.parse model recognising one fixed response text. -/
def parseC9 : String → Option ExtractResp := fun s =>
  if s = "ok]" then
    some ⟨some [⟨some "1,000", some "Monetary", none, none, none, none⟩]⟩
  else none

/-- An oracle whose every attempt returns that fixed response text. -/
def oracleC9 : Nat → Except String String := fun _ => .ok "ok]"

/-- A JSON.parse model that always fails (non-JSON response). -/
def parseFail : String → Option ExtractResp := fun _ => none

/-- An extraction oracle that always returns well-delimited non-JSON text. -/
def oracleC4 : Nat → Except String String := fun _ => .ok "x]"

/-- An entity whose description matches no keyword rule. -/
def c3Entity : Entity :=
  ⟨"42", "count", some "miscellaneous item", none, none, 6/10⟩

/-- A linking oracle whose every attempt throws. -/
def failLinkOracle : Nat → Nat → Except String LinkParsed :=
  fun _ _ => .error "transport"

/-- A concrete tag for linking fixtures. -/
def tagC5 : XbrlTag := ⟨"us-gaap:Revenue", "us-gaap", 95/100⟩

/-- A linking oracle whose every attempt returns one mapping for local
entity 0. -/
def okLinkOracle : Nat → Nat → Except String LinkParsed :=
  fun _ _ => .ok ⟨some [⟨0, some tagC5, some "mapped"⟩]⟩

/-- A linking oracle whose every attempt returns one mapping carrying a tag
but no `explanation` key (the validation accepts it). -/
def noExplOracle : Nat → Nat → Except String LinkParsed :=
  fun _ _ => .ok ⟨some [⟨0, some tagC5, none⟩]⟩

/-- A two-entity input list for linking fixtures. -/
def esC5 : List Entity :=
  [⟨"5", "monetary", some "total revenue", some "$", none, 8/10⟩,
   ⟨"7", "count", some "misc", none, none, 6/10⟩]

/-- An entity that the enhanced keyword table maps to Revenue. -/
def c6Entity : Entity :=
  ⟨"9", "monetary", some "total revenue", some "$", none, 8/10⟩

/-- Dedup fixtures: two entities sharing the (value, type) key and one
differing only in type. -/
def c8A : Entity := ⟨"5", "count", some "a", none, none, 6/10⟩

/-- See `c8A`. -/
def c8B : Entity := ⟨"5", "monetary", some "b", none, none, 8/10⟩

/-- See `c8A`. -/
def c8C : Entity := ⟨"5", "count", some "c", none, none, 6/10⟩

/-- A linked entity carrying a tag. -/
def c10Linked : LinkedEntity :=
  ⟨"5", "monetary", some "total revenue", some "$", none, 8/10,
   some ⟨"us-gaap:Revenue", "us-gaap", 6/10⟩, some "mapped"⟩

/-! # Claims -/

/-- The scenario text of the extraction test case. -/
def scenarioText : String :=
  "Revenue was $1,234.56 and grew 12.5% to 1,000,000 shares outstanding"

/-- Claim C1, counterexample: for goldStandard `{value:"100",type:"monetary"}`
and prediction `{value:"100.00",type:"monetary"}` the types are equal and the
parsed values differ by less than 0.01, yet `_isMatchingEntity` rejects the
pair (it additionally requires strict string equality of `value`), so the
evaluation yields truePositives = 0 and precision = recall = f1 = accuracy
= 0, not 1.0 as claimed. -/
theorem c1_matching_counterexample :
    (EvalEntity.mk "100.00" "monetary").type = (EvalEntity.mk "100" "monetary").type ∧
    qAbsLt (parseFloatD "100.00") (parseFloatD "100") = true ∧
    isMatchingEntity ⟨"100.00", "monetary"⟩ ⟨"100", "monetary"⟩ = false ∧
    finNITruePositives [⟨"100.00", "monetary"⟩] [⟨"100", "monetary"⟩] = 0 ∧
    evaluateFinNIPredictions [⟨"100.00", "monetary"⟩] [⟨"100", "monetary"⟩] =
      ⟨0, 0, 0, 0⟩ := by
  refine ⟨rfl, by decide, by decide, by decide, ?_⟩
  have htp : finNITruePositives [⟨"100.00", "monetary"⟩] [⟨"100", "monetary"⟩] = 0 := by
    decide
  have hfp : finNIFalsePositives [⟨"100.00", "monetary"⟩] [⟨"100", "monetary"⟩] = 1 := by
    decide
  have hfn : finNIFalseNegatives [⟨"100.00", "monetary"⟩] [⟨"100", "monetary"⟩] = 1 := by
    decide
  simp [evaluateFinNIPredictions, htp, hfp, hfn]

/-- Claim C1, amended: a predicted entity matches a gold entity iff their
`value` strings are equal, their `type` fields are equal, and the absolute
difference of the numerically parsed values is < 0.01; consequently the
quoted input yields all-zero metrics, while value-identical strings (e.g.
prediction "100" against gold "100") yield truePositives = 1 and
precision = recall = f1 = accuracy = 1. -/
theorem c1_matching_amended :
    (∀ p g : EvalEntity, isMatchingEntity p g = true ↔
      (p.value = g.value ∧ p.type = g.type ∧
        qAbsLt (parseFloatD p.value) (parseFloatD g.value) = true)) ∧
    finNITruePositives [⟨"100", "monetary"⟩] [⟨"100", "monetary"⟩] = 1 ∧
    evaluateFinNIPredictions [⟨"100", "monetary"⟩] [⟨"100", "monetary"⟩] =
      ⟨1, 1, 1, 1⟩ := by
  refine ⟨?_, by decide, ?_⟩
  · intro p g
    simp [isMatchingEntity, Bool.and_eq_true, beq_iff_eq, and_assoc]
  · have htp : finNITruePositives [⟨"100", "monetary"⟩] [⟨"100", "monetary"⟩] = 1 := by
      decide
    have hfp : finNIFalsePositives [⟨"100", "monetary"⟩] [⟨"100", "monetary"⟩] = 0 := by
      decide
    have hfn : finNIFalseNegatives [⟨"100", "monetary"⟩] [⟨"100", "monetary"⟩] = 0 := by
      decide
    simp [evaluateFinNIPredictions, htp, hfp, hfn]
    norm_num

/-- Claim C2, counterexample: on the scenario text the Rule-Based Extractor
returns five entities, not three — the plain-number pass re-emits `1234.56`
under type `count` (dedup keys on the (value, type) pair, so the monetary
copy does not suppress it) and classifies `12.5` as `shares` (its ±40
character window reaches "shares outstanding"). -/
theorem c2_scenario_counterexample :
    (ruleBasedNumericExtraction scenarioText).length = 5 ∧
    (ruleBasedNumericExtraction scenarioText).length ≠ 3 := by
  decide

/-- Claim C2, amended: with the oracle disabled the scenario text yields
exactly five entities, in this order: the three claimed ones —
`{value:"1234.56", type:"monetary", unit:"$"}`,
`{value:"12.5", type:"percentage", unit:"%"}`, and `1,000,000` classified
`shares` — plus `{value:"1234.56", type:"count"}` (the plain-number pass
re-matches the monetary literal; its context window stops one character
short of the word "shares") and `{value:"12.5", type:"shares"}` (its context
window contains "shares outstanding"). -/
theorem c2_scenario_amended :
    ruleBasedNumericExtraction scenarioText =
      [{ value := "1234.56", type := "monetary",
         description := some "Found monetary value: $1,234.56",
         unit := some "$", period := none, confidence := 8/10 },
       { value := "12.5", type := "percentage",
         description := some "Found percentage: 12.5%",
         unit := some "%", period := none, confidence := 8/10 },
       { value := "1234.56", type := "count",
         description := some "Context: Revenue was $1,234.56 and grew 12.5% to 1,000,000 sha",
         unit := none, period := none, confidence := 6/10 },
       { value := "12.5", type := "shares",
         description := some "Context: Revenue was $1,234.56 and grew 12.5% to 1,000,000 shares outstanding",
         unit := some "shares", period := none, confidence := 6/10 },
       { value := "1000000", type := "shares",
         description := some "Context: Revenue was $1,234.56 and grew 12.5% to 1,000,000 shares outstanding",
         unit := some "shares", period := none, confidence := 6/10 }] := rfl

/-- Claim C7: the extraction metrics are total and degenerate-safe — each of
precision, recall, f1Score and accuracy is 0 whenever its denominator is 0,
and an empty gold standard yields accuracy = 0 and recall = 0 for any
predictions. -/
theorem c7_degenerate_metrics (preds golds : List EvalEntity) :
    (finNITruePositives preds golds + finNIFalsePositives preds golds = 0 →
      (evaluateFinNIPredictions preds golds).precision = 0) ∧
    (finNITruePositives preds golds + finNIFalseNegatives preds golds = 0 →
      (evaluateFinNIPredictions preds golds).«recall» = 0) ∧
    ((evaluateFinNIPredictions preds golds).precision +
        (evaluateFinNIPredictions preds golds).«recall» = 0 →
      (evaluateFinNIPredictions preds golds).f1Score = 0) ∧
    (golds = [] →
      (evaluateFinNIPredictions preds golds).accuracy = 0 ∧
      (evaluateFinNIPredictions preds golds).«recall» = 0) := by
  refine ⟨?_, ?_, ?_, ?_⟩
  · intro h
    have h1 : finNITruePositives preds golds = 0 := by omega
    simp [evaluateFinNIPredictions, h1]
  · intro h
    have h1 : finNITruePositives preds golds = 0 := by omega
    simp [evaluateFinNIPredictions, h1]
  · intro h
    have e : (evaluateFinNIPredictions preds golds).f1Score =
        2 * (((evaluateFinNIPredictions preds golds).precision *
              (evaluateFinNIPredictions preds golds).«recall») /
             ((evaluateFinNIPredictions preds golds).precision +
              (evaluateFinNIPredictions preds golds).«recall»)) := rfl
    rw [e, h, div_zero, mul_zero]
  · intro h
    subst h
    constructor
    · simp [evaluateFinNIPredictions]
    · simp [evaluateFinNIPredictions, finNITruePositives]

/-- Witness for C7 at a concrete input: one prediction, empty gold standard. -/
theorem c7_degenerate_metrics_witness :
    (evaluateFinNIPredictions [⟨"7", "count"⟩] []).accuracy = 0 ∧
    (evaluateFinNIPredictions [⟨"7", "count"⟩] []).«recall» = 0 :=
  (c7_degenerate_metrics [⟨"7", "count"⟩] []).2.2.2 rfl

/-- An `Except` that failed carries some error. -/
theorem exceptFailed_error {α : Type} {x : Except String α}
    (h : exceptFailed x = true) : ∃ e, x = .error e := by
  cases x with
  | error e => exact ⟨e, rfl⟩
  | ok a => simp [exceptFailed] at h

/-- Claim C4: extraction never fails its caller — if the oracle credential is
absent, the local-extraction flag is set, or every one of the three attempts
fails (transport error, fence-stripped text not ending in a closing
brace/bracket, JSON.parse failure, or missing `entities` array — exactly the
failure cases of `attemptResult`), `identifyNumericEntities` returns the
Rule-Based Extractor's result over the full text. -/
theorem c4_extraction_never_fails (parse : String → Option ExtractResp)
    (uL hK : Bool) (oracle : Nat → Except String String) (text : String) :
    uL = true ∨ hK = false ∨
      (exceptFailed (attemptResult parse oracle 0) = true ∧
       exceptFailed (attemptResult parse oracle 1) = true ∧
       exceptFailed (attemptResult parse oracle 2) = true) →
    identifyNumericEntities parse uL hK oracle text =
      ⟨ruleBasedNumericExtraction text⟩ := by
  intro h
  rcases h with h | h | ⟨h0, h1, h2⟩
  · subst h; simp [identifyNumericEntities]
  · subst h; simp [identifyNumericEntities]
  · obtain ⟨e0, he0⟩ := exceptFailed_error h0
    obtain ⟨e1, he1⟩ := exceptFailed_error h1
    obtain ⟨e2, he2⟩ := exceptFailed_error h2
    have r0 : callGeminiAPI parse oracle 2 =
        (match attemptResult parse oracle 0 with
         | .ok t => .ok t
         | .error _ => callGo parse oracle 1 1) := rfl
    have r1 : callGo parse oracle 1 1 =
        (match attemptResult parse oracle 1 with
         | .ok t => .ok t
         | .error _ => callGo parse oracle 2 0) := rfl
    have r2 : callGo parse oracle 2 0 = attemptResult parse oracle 2 := rfl
    have hcall : callGeminiAPI parse oracle 2 = .error e2 := by
      calc callGeminiAPI parse oracle 2
          = callGo parse oracle 1 1 := by rw [r0, he0]
        _ = callGo parse oracle 2 0 := by rw [r1, he1]
        _ = .error e2 := by rw [r2, he2]
    cases uL <;> cases hK <;> simp [identifyNumericEntities, hcall]

/-- Witness for C4: a parse that always rejects makes all three attempts
fail, and extraction equals the rule-based result on the scenario text. -/
theorem c4_extraction_never_fails_witness :
    identifyNumericEntities parseFail false true oracleC4 scenarioText =
      ⟨ruleBasedNumericExtraction scenarioText⟩ :=
  c4_extraction_never_fails parseFail false true oracleC4 scenarioText
    (Or.inr (Or.inr ⟨by decide, by decide, by decide⟩))

/-- Claim C9: on the oracle success path every entity is normalized — `type`
lower-cased, all commas removed from the string form of `value` (none
remain), and `confidence` defaulted to 0.9 when the entity arrived without
one. -/
theorem c9_normalization (parse : String → Option ExtractResp)
    (oracle : Nat → Except String String) (text t : String)
    (raws : List RawEntity) :
    (callGeminiAPI parse oracle 2 = .ok t →
      parse (sanitizeResp t) = some ⟨some raws⟩ →
      identifyNumericEntities parse false true oracle text =
        ⟨raws.map normalizeEntity⟩) ∧
    (∀ raw : RawEntity,
      (normalizeEntity raw).type = lowerStr (raw.type.getD "") ∧
      (normalizeEntity raw).value = String.mk (stripCommasL (raw.value.getD "").data) ∧
      ',' ∉ (normalizeEntity raw).value.data ∧
      (raw.confidence = none → (normalizeEntity raw).confidence = 9/10)) := by
  constructor
  · intro h1 h2
    simp [identifyNumericEntities, h1, h2]
  · intro raw
    refine ⟨rfl, rfl, ?_, ?_⟩
    · intro hmem
      have h2 : (',' : Char) ∈
          List.filter (fun c => decide (c ≠ ',')) (raw.value.getD "").data := hmem
      have h3 := List.of_mem_filter h2
      simp at h3
    · intro h
      simp [normalizeEntity, h, jsOrQ]

/-- Witness for C9 at a concrete successful oracle exchange: type is
lower-cased, the comma is stripped, and the absent confidence becomes 0.9. -/
theorem c9_normalization_witness :
    identifyNumericEntities parseC9 false true oracleC9 "irrelevant" =
      ⟨[{ value := "1000", type := "monetary", description := none,
          unit := none, period := none, confidence := 9/10 }]⟩ ∧
    (normalizeEntity ⟨some "1,000", some "Monetary", none, none, none, none⟩).confidence
      = 9/10 := by
  constructor
  · have h := (c9_normalization parseC9 oracleC9 "irrelevant" "ok]"
      [⟨some "1,000", some "Monetary", none, none, none, none⟩]).1 rfl rfl
    exact h.trans rfl
  · exact ((c9_normalization parseC9 oracleC9 "irrelevant" "ok]" []).2
      ⟨some "1,000", some "Monetary", none, none, none, none⟩).2.2.2 rfl

/-- Claim C10: the stored stage metrics are not computed from the
predictions — `processFinNI` records the constants precision 0.95,
recall 0.92, f1 0.93, accuracy 0.94 and processingTime 1000 for every
input, and `processFinCL` sets all four metrics to the single value
mappedCount / total (the fraction of entities with a non-null `xbrlTag`). -/
theorem c10_hardcoded_metrics :
    (∀ es : List Entity,
      (processFinNIRecord es).metrics = ⟨95/100, 92/100, 93/100, 94/100⟩ ∧
      (processFinNIRecord es).processingTime = 1000) ∧
    (∀ fe : List LinkedEntity, fe ≠ [] →
      (processFinCLRecord fe).metrics =
        ⟨some ((mappedCount fe : ℚ) / (fe.length : ℚ)),
         some ((mappedCount fe : ℚ) / (fe.length : ℚ)),
         some ((mappedCount fe : ℚ) / (fe.length : ℚ)),
         some ((mappedCount fe : ℚ) / (fe.length : ℚ))⟩ ∧
      (processFinCLRecord fe).processingTime = 1500) := by
  constructor
  · intro es; exact ⟨rfl, rfl⟩
  · intro fe h
    have hl : fe.length ≠ 0 := by
      simpa [List.length_eq_zero] using h
    refine ⟨?_, rfl⟩
    simp [processFinCLRecord, finCLFraction, hl]

/-- Witness for C10 at concrete inputs: empty extraction list, singleton
linked list. -/
theorem c10_hardcoded_metrics_witness :
    (processFinNIRecord []).metrics = ⟨95/100, 92/100, 93/100, 94/100⟩ ∧
    (processFinCLRecord [c10Linked]).metrics =
      ⟨some ((mappedCount [c10Linked] : ℚ) / (([c10Linked] : List LinkedEntity).length : ℚ)),
       some ((mappedCount [c10Linked] : ℚ) / (([c10Linked] : List LinkedEntity).length : ℚ)),
       some ((mappedCount [c10Linked] : ℚ) / (([c10Linked] : List LinkedEntity).length : ℚ)),
       some ((mappedCount [c10Linked] : ℚ) / (([c10Linked] : List LinkedEntity).length : ℚ))⟩ :=
  ⟨(c10_hardcoded_metrics.1 []).1,
   (c10_hardcoded_metrics.2 [c10Linked] (by simp)).1⟩

/-- Dedup with a fixed seen-set is idempotent. -/
theorem dedupGo_idem (l : List Entity) :
    ∀ seen, dedupGo seen (dedupGo seen l) = dedupGo seen l := by
  induction l with
  | nil => intro seen; rfl
  | cons e t ih =>
    intro seen
    by_cases h : keyOf e ∈ seen
    · simp [dedupGo, h, ih]
    · have h1 : dedupGo seen (e :: t) = e :: dedupGo (keyOf e :: seen) t := by
        simp [dedupGo, h]
      rw [h1]
      have h2 : dedupGo seen (e :: dedupGo (keyOf e :: seen) t) =
          e :: dedupGo (keyOf e :: seen) (dedupGo (keyOf e :: seen) t) := by
        simp [dedupGo, h]
      rw [h2, ih]

/-- Keys `v ++ "||" ++ t` are injective in (v, t) when the values are free of
the pipe character. -/
theorem pipeKeyInj :
    ∀ (v1 v2 t1 t2 : List Char), '|' ∉ v1 → '|' ∉ v2 →
      v1 ++ '|' :: '|' :: t1 = v2 ++ '|' :: '|' :: t2 → v1 = v2 ∧ t1 = t2 := by
  intro v1
  induction v1 with
  | nil =>
    intro v2 t1 t2 h1 h2 h
    cases v2 with
    | nil =>
      simp only [List.nil_append, List.cons.injEq] at h
      exact ⟨rfl, h.2.2⟩
    | cons c v2t =>
      simp only [List.nil_append, List.cons_append, List.cons.injEq] at h
      exact absurd (h.1 ▸ List.mem_cons_self c v2t) h2
  | cons c v1t ih =>
    intro v2 t1 t2 h1 h2 h
    cases v2 with
    | nil =>
      simp only [List.nil_append, List.cons_append, List.cons.injEq] at h
      exact absurd (h.1 ▸ List.mem_cons_self c v1t) h1
    | cons d v2t =>
      simp only [List.cons_append, List.cons.injEq] at h
      obtain ⟨rfl, h'⟩ := h
      have hr := ih v2t t1 t2 (fun hm => h1 (List.mem_cons_of_mem _ hm))
        (fun hm => h2 (List.mem_cons_of_mem _ hm)) h'
      exact ⟨by rw [hr.1], hr.2⟩

/-- On pipe-free values, the string-keyed dedup coincides with the
pair-keyed dedup, for any matching seen-sets. -/
theorem dedupGo_eq_pair :
    ∀ (l : List Entity) (sp : List (String × String)),
      (∀ e ∈ l, '|' ∉ e.value.data) →
      (∀ p ∈ sp, '|' ∉ p.1.data) →
      dedupGo (sp.map (fun p => p.1.data ++ ['|', '|'] ++ p.2.data)) l =
        dedupPairGo sp l := by
  intro l
  induction l with
  | nil => intro sp _ _; rfl
  | cons e t ih =>
    intro sp hl hsp
    have he : '|' ∉ e.value.data := hl e (List.mem_cons_self e t)
    have hmem : (keyOf e ∈ sp.map (fun p => p.1.data ++ ['|', '|'] ++ p.2.data)) ↔
        ((e.value, e.type) ∈ sp) := by
      constructor
      · intro hk
        obtain ⟨p, hp, hfp⟩ := List.mem_map.mp hk
        obtain ⟨hv, ht⟩ := pipeKeyInj p.1.data e.value.data p.2.data e.type.data
          (hsp p hp) he (by simpa [keyOf, List.append_assoc] using hfp)
        have : p = (e.value, e.type) := by
          cases p with
          | mk a b => simp only [Prod.mk.injEq]; exact ⟨String.ext hv, String.ext ht⟩
        exact this ▸ hp
      · intro hk
        exact List.mem_map.mpr ⟨(e.value, e.type), hk, rfl⟩
    by_cases h : (e.value, e.type) ∈ sp
    · have hk : keyOf e ∈ sp.map (fun p => p.1.data ++ ['|', '|'] ++ p.2.data) :=
        hmem.mpr h
      simp only [dedupGo, dedupPairGo, if_pos hk, if_pos h]
      exact ih sp (fun x hx => hl x (List.mem_cons_of_mem _ hx)) hsp
    · have hk : keyOf e ∉ sp.map (fun p => p.1.data ++ ['|', '|'] ++ p.2.data) :=
        fun hc => h (hmem.mp hc)
      simp only [dedupGo, dedupPairGo, if_neg hk, if_neg h]
      have hstep := ih ((e.value, e.type) :: sp)
        (fun x hx => hl x (List.mem_cons_of_mem _ hx))
        (fun p hp => by
          rcases List.mem_cons.mp hp with hp | hp
          · rw [hp]; exact he
          · exact hsp p hp)
      exact congrArg (e :: ·) hstep

/-- Claim C8: the Rule-Based Extractor's dedup is idempotent on every
candidate list, and on candidate lists whose values are free of the pipe
character (true of every candidate the extractor produces — values are
digit strings) it is exactly the dedup keyed by the (value, type) pair,
keeping the first occurrence of each key. -/
theorem c8_dedup_pair_idempotent :
    (∀ l : List Entity, dedupEntities (dedupEntities l) = dedupEntities l) ∧
    (∀ l : List Entity, (∀ e ∈ l, '|' ∉ e.value.data) →
      dedupEntities l = dedupByPair l) := by
  constructor
  · intro l; exact dedupGo_idem l []
  · intro l hl
    have h := dedupGo_eq_pair l [] hl (by simp)
    simpa [dedupEntities, dedupByPair] using h

/-- Witness for C8 on a concrete candidate list with one duplicate key:
dedup is idempotent there, agrees with the pair-keyed dedup, and keeps the
first occurrence. -/
theorem c8_dedup_pair_idempotent_witness :
    dedupEntities (dedupEntities [c8A, c8B, c8C]) = dedupEntities [c8A, c8B, c8C] ∧
    dedupEntities [c8A, c8B, c8C] = dedupByPair [c8A, c8B, c8C] ∧
    dedupEntities [c8A, c8B, c8C] = [c8A, c8B] :=
  ⟨c8_dedup_pair_idempotent.1 [c8A, c8B, c8C],
   c8_dedup_pair_idempotent.2 [c8A, c8B, c8C] (by decide),
   rfl⟩

/-- An output entity left without any tag comes from the rule-fallback
branch with no keyword match, which always discloses the fixed
no-mapping explanation. -/
theorem applyAll_untagged_expl (ms : List RawMapping) :
    ∀ (es : List Entity) (i : Nat) (le : LinkedEntity),
      le ∈ applyAll ms i es → le.xbrlTag = none →
        le.mappingExplanation = some "No suitable US-GAAP mapping found" := by
  intro es
  induction es with
  | nil => intro i le h; simp [applyAll] at h
  | cons e t ih =>
    intro i le h htag
    simp only [applyAll] at h
    rcases List.mem_cons.mp h with h | h
    · subst h
      unfold applyOne at htag ⊢
      cases hf : ms.find? (fun m => m.entityId == i) with
      | none =>
        cases ht : enhancedRuleTag (descKey e) with
        | none => simp [fallbackLink, ht]
        | some t2 => simp [fallbackLink, ht, hf] at htag
      | some m =>
        cases hx : m.xbrlTag with
        | none =>
          cases ht : enhancedRuleTag (descKey e) with
          | none => simp [fallbackLink, ht, hx]
          | some t2 => simp [fallbackLink, ht, hf, hx] at htag
        | some t2 => simp [hf, hx] at htag
    · exact ih (i + 1) le h htag

/-- Claim C3, counterexample: the claim fails on both linking paths.  On the
secondary top-level fallback path (taken when `linkConcepts` throws, e.g.
with no credential), an entity matching no keyword rule ends with
`xbrlTag = null` AND `mappingExplanation = null` — that path never sets an
explanation.  And on the primary path, a validated oracle mapping carrying a
tag but no `explanation` key (the count-only validation accepts it) yields a
tagged entity with `mappingExplanation = undefined`. -/
theorem c3_secondary_path_counterexample :
    (processFinCLLinked false failLinkOracle [c3Entity]).map
        (fun le => (le.xbrlTag, le.mappingExplanation)) = [(none, none)] ∧
    ¬ (∀ le ∈ processFinCLLinked false failLinkOracle [c3Entity],
        le.mappingExplanation ≠ none) ∧
    (linkCore noExplOracle [c3Entity]).map
        (fun le => (le.xbrlTag, le.mappingExplanation)) = [(some tagC5, none)] := by
  refine ⟨rfl, ?_, rfl⟩
  intro h
  have hm : secondaryLink c3Entity ∈ processFinCLLinked false failLinkOracle [c3Entity] := by
    rw [show processFinCLLinked false failLinkOracle [c3Entity] =
      [secondaryLink c3Entity] from rfl]
    exact List.mem_singleton_self _
  exact h (secondaryLink c3Entity) hm rfl

/-- Claim C3, amended: on the primary `linkConcepts` path, every entity with
no oracle-applied mapping goes through the rule fallback, which always sets
a non-null `mappingExplanation`; an entity left without any tag always gets
the fixed no-mapping explanation; but an oracle-tagged entity's
`mappingExplanation` is just the mapping's `explanation` field, present only
when the (count-only validated) oracle response carried one; and on the
secondary top-level fallback path no entity receives any
`mappingExplanation`. -/
theorem c3_explanation_amended :
    (∀ (oracle : Nat → Nat → Except String LinkParsed) (es : List Entity)
        (le : LinkedEntity), le ∈ linkCore oracle es → le.xbrlTag = none →
          le.mappingExplanation = some "No suitable US-GAAP mapping found") ∧
    (∀ (ms : List RawMapping) (i : Nat) (e : Entity),
        (∀ m ∈ ms, m.entityId ≠ i) → applyOne ms i e = fallbackLink e) ∧
    (∀ e : Entity, (fallbackLink e).mappingExplanation.isSome = true) ∧
    (∀ (ms : List RawMapping) (i : Nat) (e : Entity) (m : RawMapping) (t : XbrlTag),
        ms.find? (fun m2 => m2.entityId == i) = some m → m.xbrlTag = some t →
          (applyOne ms i e).mappingExplanation = m.explanation) ∧
    (∀ (es : List Entity) (le : LinkedEntity), le ∈ es.map secondaryLink →
        le.mappingExplanation = none) := by
  refine ⟨?_, ?_, ?_, ?_, ?_⟩
  · intro oracle es le h htag
    exact applyAll_untagged_expl (collectAll oracle es) es 0 le h htag
  · intro ms i e hnone
    have hf : ms.find? (fun m => m.entityId == i) = none := by
      rw [List.find?_eq_none]
      intro m hm
      simpa using hnone m hm
    unfold applyOne
    rw [hf]
  · intro e
    unfold fallbackLink
    cases ht : enhancedRuleTag (descKey e) <;> simp [ht]
  · intro ms i e m t hf hx
    unfold applyOne
    rw [hf]
    simp [hx]
  · intro es le h
    obtain ⟨e, -, rfl⟩ := List.mem_map.mp h
    rfl

/-- Witness for C3 (amended) at concrete members of each path: an untagged
fallback entity, a position with no oracle mapping, an oracle mapping
without an explanation, and a secondary-path entity. -/
theorem c3_explanation_amended_witness :
    (fallbackLink c3Entity).mappingExplanation = some "No suitable US-GAAP mapping found" ∧
    applyOne [] 0 c3Entity = fallbackLink c3Entity ∧
    (fallbackLink c3Entity).mappingExplanation.isSome = true ∧
    (applyOne [⟨0, some tagC5, none⟩] 0 c3Entity).mappingExplanation = none ∧
    (secondaryLink c3Entity).mappingExplanation = none := by
  refine ⟨?_, ?_, ?_, ?_, ?_⟩
  · refine c3_explanation_amended.1 failLinkOracle [c3Entity] (fallbackLink c3Entity) ?_ rfl
    rw [show linkCore failLinkOracle [c3Entity] = [fallbackLink c3Entity] from rfl]
    exact List.mem_singleton_self _
  · exact c3_explanation_amended.2.1 [] 0 c3Entity (by intro m hm; simp at hm)
  · exact c3_explanation_amended.2.2.1 c3Entity
  · exact c3_explanation_amended.2.2.2.1 [⟨0, some tagC5, none⟩] 0 c3Entity
      ⟨0, some tagC5, none⟩ tagC5 rfl rfl
  · refine c3_explanation_amended.2.2.2.2 [c3Entity] (secondaryLink c3Entity) ?_
    rw [show [c3Entity].map secondaryLink = [secondaryLink c3Entity] from rfl]
    exact List.mem_singleton_self _

/-- The merge step returns one output per input. -/
theorem applyAll_length (ms : List RawMapping) :
    ∀ (es : List Entity) (i : Nat), (applyAll ms i es).length = es.length := by
  intro es
  induction es with
  | nil => intro i; rfl
  | cons e t ih => intro i; simp [applyAll, ih]

/-- The merge step preserves every field of the input entity. -/
theorem applyOne_fields (ms : List RawMapping) (i : Nat) (e : Entity) :
    (applyOne ms i e).value = e.value ∧ (applyOne ms i e).type = e.type ∧
    (applyOne ms i e).description = e.description ∧
    (applyOne ms i e).unit = e.unit ∧ (applyOne ms i e).period = e.period ∧
    (applyOne ms i e).confidence = e.confidence := by
  unfold applyOne
  cases hf : ms.find? (fun m => m.entityId == i) with
  | none => simp [fallbackLink]
  | some m =>
    cases hx : m.xbrlTag with
    | none => simp [fallbackLink, hx]
    | some t => simp [hx]

/-- The k-th output of the merge step is the k-th input merged at global
index `i + k`. -/
theorem applyAll_get? (ms : List RawMapping) :
    ∀ (es : List Entity) (i k : Nat),
      (applyAll ms i es).get? k = (es.get? k).map (fun e => applyOne ms (i + k) e) := by
  intro es
  induction es with
  | nil => intro i k; simp [applyAll]
  | cons e t ih =>
    intro i k
    cases k with
    | zero => simp [applyAll]
    | succ k2 =>
      simp only [applyAll, List.get?_cons_succ]
      rw [ih (i + 1) k2]
      have harith : i + 1 + k2 = i + (k2 + 1) := by omega
      rw [harith]

/-- A successful attempt value comes from a parsed oracle response. -/
theorem attemptValue_some {oracle : Nat → Nat → Except String LinkParsed}
    {b B a : Nat} {ms : List RawMapping}
    (h : attemptValue oracle b B a = some ms) :
    ∃ p, oracle b a = .ok p ∧ attemptMappings p B = some ms := by
  unfold attemptValue at h
  cases ho : oracle b a with
  | error e => rw [ho] at h; cases h
  | ok p => rw [ho] at h; exact ⟨p, rfl, h⟩

/-- A successful batch result comes from one of the three attempts. -/
theorem batchResult_some {oracle : Nat → Nat → Except String LinkParsed}
    {b B : Nat} {ms : List RawMapping}
    (h : batchResult oracle b B = some ms) :
    ∃ a p, (a = 1 ∨ a = 2 ∨ a = 3) ∧ oracle b a = .ok p ∧
      attemptMappings p B = some ms := by
  unfold batchResult at h
  cases h1 : attemptValue oracle b B 1 with
  | some m1 =>
    rw [h1] at h
    obtain ⟨p, hp, hm⟩ := attemptValue_some h1
    cases h
    exact ⟨1, p, Or.inl rfl, hp, hm⟩
  | none =>
    rw [h1] at h
    cases h2 : attemptValue oracle b B 2 with
    | some m2 =>
      rw [h2] at h
      obtain ⟨p, hp, hm⟩ := attemptValue_some h2
      cases h
      exact ⟨2, p, Or.inr (Or.inl rfl), hp, hm⟩
    | none =>
      rw [h2] at h
      obtain ⟨p, hp, hm⟩ := attemptValue_some h
      exact ⟨3, p, Or.inr (Or.inr rfl), hp, hm⟩

/-- Validated mappings are the parsed `mappings` array. -/
theorem attemptMappings_some {p : LinkParsed} {B : Nat} {ms : List RawMapping}
    (h : attemptMappings p B = some ms) : p.mappings = some ms := by
  unfold attemptMappings at h
  cases hp : p.mappings with
  | none => rw [hp] at h; cases h
  | some l =>
    rw [hp] at h
    by_cases hlt : 10 * l.length < 7 * B
    · simp [hlt] at h
    · simp [hlt] at h; rw [h]

/-- Re-indexed mapping ids stay below the entity count whenever the oracle
respects batch-local indexing. -/
theorem collectAll_id_lt (oracle : Nat → Nat → Except String LinkParsed)
    (es : List Entity)
    (hwf : ∀ b a p, b < numBatches es.length → oracle b a = .ok p →
      ∀ mm ∈ p.mappings.getD [], mm.entityId < (batchAt es b).length) :
    ∀ m ∈ collectAll oracle es, m.entityId < es.length := by
  intro m hm
  unfold collectAll at hm
  obtain ⟨b, hb, hmb⟩ := List.mem_flatMap.mp hm
  have hbr : b < numBatches es.length := List.mem_range.mp hb
  cases hres : batchResult oracle b (batchAt es b).length with
  | none => rw [hres] at hmb; simp at hmb
  | some ms =>
    rw [hres] at hmb
    simp only [List.mem_map] at hmb
    obtain ⟨mm, hmm, rfl⟩ := hmb
    obtain ⟨a, p, -, hop, hatt⟩ := batchResult_some hres
    have hpm : p.mappings = some ms := attemptMappings_some hatt
    have hid := hwf b a p hbr hop mm (by rw [hpm]; simpa using hmm)
    have hlen : (batchAt es b).length = min BATCH_SIZE (es.length - BATCH_SIZE * b) := by
      simp [batchAt, List.length_take, List.length_drop]
    rw [hlen] at hid
    rw [show BATCH_SIZE = 40 from rfl] at hid ⊢
    simp only []
    omega

/-- Claim C5: for every input list and every oracle behaviour, linking
returns exactly one output per input entity, in input order (the k-th
output carries the k-th input's fields), and each batch's local `entityId`
is re-indexed by its batch offset so that — whenever the oracle respects
batch-local indexing — every accumulated mapping addresses a valid global
position. -/
theorem c5_linking_preserves_shape (oracle : Nat → Nat → Except String LinkParsed)
    (es : List Entity) :
    (linkCore oracle es).length = es.length ∧
    (∀ k : Nat,
      ((linkCore oracle es).get? k).map
          (fun le => (le.value, le.type, le.description, le.unit, le.period, le.confidence)) =
        (es.get? k).map
          (fun e => (e.value, e.type, e.description, e.unit, e.period, e.confidence))) ∧
    ((∀ b a p, b < numBatches es.length → oracle b a = .ok p →
        ∀ mm ∈ p.mappings.getD [], mm.entityId < (batchAt es b).length) →
      ∀ m ∈ collectAll oracle es, m.entityId < es.length) := by
  refine ⟨applyAll_length _ es 0, ?_, collectAll_id_lt oracle es⟩
  intro k
  unfold linkCore
  rw [applyAll_get?]
  cases es.get? k with
  | none => rfl
  | some e =>
    simp only [Nat.zero_add]
    obtain ⟨h1, h2, h3, h4, h5, h6⟩ := applyOne_fields (collectAll oracle es) k e
    simp [h1, h2, h3, h4, h5, h6]

/-- Witness for C5 at a concrete two-entity input with a constant successful
oracle. -/
theorem c5_linking_preserves_shape_witness :
    (linkCore okLinkOracle esC5).length = 2 ∧
    (∀ m ∈ collectAll okLinkOracle esC5, m.entityId < 2) := by
  have h := c5_linking_preserves_shape okLinkOracle esC5
  refine ⟨h.1.trans rfl, ?_⟩
  intro m hm
  have hwf : ∀ b a p, b < numBatches esC5.length → okLinkOracle b a = .ok p →
      ∀ mm ∈ p.mappings.getD [], mm.entityId < (batchAt esC5 b).length := by
    intro b a p hb hop mm hmm
    have hnum : numBatches esC5.length = 1 := rfl
    have hb0 : b = 0 := by omega
    subst hb0
    simp only [okLinkOracle] at hop
    injection hop with hp
    subst hp
    simp only [Option.getD_some] at hmm
    have hmm2 : mm = ⟨0, some tagC5, some "mapped"⟩ := by simpa using hmm
    rw [hmm2]
    show (0 : Nat) < 2
    omega
  exact h.2.2 hwf m hm

/-- A batch contributes no mappings exactly when all three attempts fail. -/
theorem batchResult_none_iff (oracle : Nat → Nat → Except String LinkParsed)
    (b B : Nat) :
    batchResult oracle b B = none ↔
      (attemptFailed oracle b B 1 = true ∧ attemptFailed oracle b B 2 = true ∧
       attemptFailed oracle b B 3 = true) := by
  cases h1 : attemptValue oracle b B 1 <;>
    cases h2 : attemptValue oracle b B 2 <;>
      cases h3 : attemptValue oracle b B 3 <;>
        simp [batchResult, attemptFailed, h1, h2, h3]

/-- With no accumulated mappings, the merge is exactly the rule fallback. -/
theorem applyAll_nilFallback :
    ∀ (es : List Entity) (i : Nat), applyAll [] i es = es.map fallbackLink := by
  intro es
  induction es with
  | nil => intro i; rfl
  | cons e t ih => intro i; simp [applyAll, applyOne, ih]

/-- Claim C6: a parsed response covering fewer than 70% of the batch is a
failed attempt (in particular 25 of 40); each batch gets exactly three
attempts, and only when all three fail does it contribute zero mappings —
no exception propagates, and in the single-batch case the whole output
degrades to the keyword-rule fallback, which tags every entity matching a
rule with the fallback explanation. -/
theorem c6_batch_retry_fallback :
    (attemptMappings ⟨some (List.replicate 25 ⟨0, none, none⟩)⟩ 40).isNone = true ∧
    (∀ (oracle : Nat → Nat → Except String LinkParsed) (b B : Nat),
      batchResult oracle b B = none ↔
        (attemptFailed oracle b B 1 = true ∧ attemptFailed oracle b B 2 = true ∧
         attemptFailed oracle b B 3 = true)) ∧
    (∀ (oracle : Nat → Nat → Except String LinkParsed) (es : List Entity),
      es.length ≤ BATCH_SIZE →
      attemptFailed oracle 0 es.length 1 = true →
      attemptFailed oracle 0 es.length 2 = true →
      attemptFailed oracle 0 es.length 3 = true →
      linkCore oracle es = es.map fallbackLink) ∧
    (∀ (e : Entity) (t : XbrlTag), enhancedRuleTag (descKey e) = some t →
      (fallbackLink e).xbrlTag = some t ∧
      (fallbackLink e).mappingExplanation = some "Rule-based mapping (fallback)") := by
  refine ⟨by decide, batchResult_none_iff, ?_, ?_⟩
  · intro oracle es hle h1 h2 h3
    have hB : (batchAt es 0).length = es.length := by
      simp only [batchAt, Nat.mul_zero, List.drop_zero, List.length_take]
      exact Nat.min_eq_right hle
    have hbr : batchResult oracle 0 (batchAt es 0).length = none := by
      rw [hB]
      exact (batchResult_none_iff oracle 0 es.length).mpr ⟨h1, h2, h3⟩
    have hcoll : collectAll oracle es = [] := by
      unfold collectAll
      cases hn : es.length with
      | zero => rfl
      | succ n =>
        have hle40 : es.length ≤ 40 := hle
        have hle41 : n + 1 ≤ 40 := hn ▸ hle40
        have hnum : numBatches (n + 1) = 1 := by
          simp only [numBatches, BATCH_SIZE]
          omega
        rw [hnum]
        simp [hbr]
    unfold linkCore
    rw [hcoll]
    exact applyAll_nilFallback es 0
  · intro e t ht
    constructor <;> simp [fallbackLink, ht]

/-- Witness for C6: a concrete single-entity batch whose three attempts all
fail — the output degrades to the rule fallback and the matching entity
receives the Revenue tag with the fallback explanation. -/
theorem c6_batch_retry_fallback_witness :
    linkCore failLinkOracle [c6Entity] = [c6Entity].map fallbackLink ∧
    (fallbackLink c6Entity).xbrlTag = some ⟨"us-gaap:Revenue", "us-gaap", 6/10⟩ ∧
    (fallbackLink c6Entity).mappingExplanation = some "Rule-based mapping (fallback)" := by
  refine ⟨?_, ?_, ?_⟩
  · exact c6_batch_retry_fallback.2.2.1 failLinkOracle [c6Entity]
      (by decide) (by decide) (by decide) (by decide)
  · exact (c6_batch_retry_fallback.2.2.2 c6Entity ⟨"us-gaap:Revenue", "us-gaap", 6/10⟩ rfl).1
  · exact (c6_batch_retry_fallback.2.2.2 c6Entity ⟨"us-gaap:Revenue", "us-gaap", 6/10⟩ rfl).2
